import Mathlib

/-!
# LPD8 midi mapper: pad matrix, LED frame encoding and event handling

A shallow embedding of `matrix.go` and of the pad-related parts of `main.go`.

* `uint8` values are natural numbers; the theorems that depend on the 8-bit
  range carry the bound as a hypothesis.
* Go `int` indices are integers, so negative indices are representable.
* A slice is a list; an in-place field assignment `m.Elements[i].f = v`
  is `updateElement`.
* A run-time panic (index out of range, nil dereference) is `none`.
-/

namespace LPD8

/-! ## matrix.go -/

/-- RGB represents an RGB color. -/
structure RGB where
  Red : Nat
  Green : Nat
  Blue : Nat
  deriving DecidableEq, Repr

/-- Go: `return b >> 4, b & 0x0F`. -/
def OneByteToTwoMidiBytes (b : Nat) : Nat × Nat :=
  (b >>> 4, b &&& 0x0F)

/-- Go: `RGB.ToAkaiBytes`: the six nibble bytes of a colour. -/
def RGB.ToAkaiBytes (rgb : RGB) : List Nat :=
  let (redHigh, redLow) := OneByteToTwoMidiBytes rgb.Red
  let (greenHigh, greenLow) := OneByteToTwoMidiBytes rgb.Green
  let (blueHigh, blueLow) := OneByteToTwoMidiBytes rgb.Blue
  [redHigh, redLow, greenHigh, greenLow, blueHigh, blueLow]

/-- PadState represents a single element in the matrix. -/
structure PadState where
  On : Bool
  Color : RGB
  Reverse : Bool
  Static : Bool
  deriving DecidableEq, Repr

/-- PadsStateArray holds the pads in index order. -/
structure PadsStateArray where
  Elements : List PadState
  deriving DecidableEq, Repr

/-- PadConfig as declared in `main.go`; `RGB` is the three-element array. -/
structure PadConfig where
  CC : Nat
  RGB : Nat × Nat × Nat
  Static : Bool
  Reverse : Bool
  deriving DecidableEq, Repr

/-- In-place assignment to one slot of a slice: `es[n] = f es[n]`. -/
def updateElement (f : PadState → PadState) : List PadState → Nat → List PadState
  | [], _ => []
  | e :: es, 0 => f e :: es
  | e :: es, n + 1 => e :: updateElement f es n

/-- The loop body of `NewPadsStateArray` for `i = k, k+1, ...` (`todo` iterations):
reads `pads_config[i]`, which panics when `i` is past the end of the config. -/
def newPadsLoop (pads_config : List PadConfig) : Nat → Nat → Option (List PadState)
  | 0, _ => some []
  | todo + 1, i =>
    match pads_config.get? i with
    | none => none
    | some pc =>
      match newPadsLoop pads_config todo (i + 1) with
      | none => none
      | some rest =>
        some ({ On := false, Color := ⟨pc.RGB.1, pc.RGB.2.1, pc.RGB.2.2⟩,
                Reverse := pc.Reverse, Static := pc.Static } :: rest)

/-- Go: `NewPadsStateArray(lenght, pads_config)`. `make` panics on a negative
length and `pads_config[i]` panics when the config is shorter than `lenght`. -/
def NewPadsStateArray (lenght : Int) (pads_config : List PadConfig) : Option PadsStateArray :=
  if lenght < 0 then none
  else
    match newPadsLoop pads_config lenght.toNat 0 with
    | none => none
    | some es => some { Elements := es }

/-- Go: `isValidPosition`: `index >= 0 && index < len(m.Elements)`. -/
def PadsStateArray.isValidPosition (m : PadsStateArray) (index : Int) : Bool :=
  decide (index ≥ 0) && decide (index < (m.Elements.length : Int))

/-- Go: `TurnOn`. -/
def PadsStateArray.TurnOn (m : PadsStateArray) (index : Int) : PadsStateArray :=
  if m.isValidPosition index then
    { Elements := updateElement (fun e => { e with On := true }) m.Elements index.toNat }
  else m

/-- Go: `TurnOff`. -/
def PadsStateArray.TurnOff (m : PadsStateArray) (index : Int) : PadsStateArray :=
  if m.isValidPosition index then
    { Elements := updateElement (fun e => { e with On := false }) m.Elements index.toNat }
  else m

/-- Go: `Switch`: `m.Elements[index].On = !m.Elements[index].On`. -/
def PadsStateArray.Switch (m : PadsStateArray) (index : Int) : PadsStateArray :=
  if m.isValidPosition index then
    { Elements := updateElement (fun e => { e with On := !e.On }) m.Elements index.toNat }
  else m

/-- Go: `SetColor`. -/
def PadsStateArray.SetColor (m : PadsStateArray) (index : Int) (color : RGB) : PadsStateArray :=
  if m.isValidPosition index then
    { Elements := updateElement (fun e => { e with Color := color }) m.Elements index.toNat }
  else m

/-- Go: `GetElement`: the addressed pad, or `nil` (here `none`) when out of range. -/
def PadsStateArray.GetElement (m : PadsStateArray) (index : Int) : Option PadState :=
  if m.isValidPosition index then m.Elements.get? index.toNat else none

/-- One iteration of the loop of `ToColorChangeSysEx`: appends the block of one pad. -/
def sysexStep (sysex : List Nat) (e : PadState) : List Nat :=
  let shouldLight := e.On || e.Static
  let shouldLight := if e.Reverse then !shouldLight else shouldLight
  if shouldLight then sysex ++ e.Color.ToAkaiBytes
  else sysex ++ [0x00, 0x00, 0x00, 0x00, 0x00, 0x00]

/-- Go: `ToColorChangeSysEx`: header, then the pads' blocks appended in index order. -/
def PadsStateArray.ToColorChangeSysEx (m : PadsStateArray) : List Nat :=
  m.Elements.foldl sysexStep [0x47, 0x7F, 0x4C, 0x06, 0x00, 0x30]

/-! ## main.go -/

/-- A MIDI port as the driver lists it: `name` is what `port.String()` returns,
`number` tells ports with equal names apart. -/
structure Port where
  name : String
  number : Nat
  deriving DecidableEq, Repr

/-- MidiDevice of `main.go`; a nil port is `none`. -/
structure MidiDevice where
  Name : String
  InPort : Option Port
  OutPort : Option Port
  deriving DecidableEq, Repr

/-- Go: `strings.Split(s, " ")` on the characters of `s`: always at least one piece. -/
def Split : List Char → List (List Char)
  | [] => [[]]
  | c :: cs =>
    if c = Char.ofNat 32 then [] :: Split cs
    else
      match Split cs with
      | [] => [[c]]
      | w :: ws => (c :: w) :: ws

/-- Go: `strings.Join(parts, " ")`. -/
def Join : List (List Char) → List Char
  | [] => []
  | [w] => w
  | w :: ws => w ++ Char.ofNat 32 :: Join ws

/-- The name a port is compared under:
`strings.Join(split[:len(split)-1], " ")` with `split = strings.Split(port_name, " ")`. -/
def strippedPortName (port_name : String) : String :=
  String.mk (Join (Split port_name.data).dropLast)

/-- The two search loops of `NewMidiDeviceFromName`: the first port whose stripped
name equals `name` (`break` on the first match), `none` when the loop ends without one. -/
def firstMatchingPort (name : String) : List Port → Option Port
  | [] => none
  | port :: rest =>
    if strippedPortName port.name = name then some port
    else firstMatchingPort name rest

/-- Go: `NewMidiDeviceFromName`. Both guards test `midiDevice.InPort == nil`,
as in the source (lines 82 and 85). -/
def NewMidiDeviceFromName (name : String) (inPorts outPorts : List Port)
    (allow_missing_ports : Bool) : Except String MidiDevice :=
  let midiDevice : MidiDevice :=
    { Name := name
      InPort := firstMatchingPort name inPorts
      OutPort := firstMatchingPort name outPorts }
  if !allow_missing_ports && midiDevice.InPort.isNone then
    Except.error ("MIDI in port " ++ name ++ " not found")
  else if !allow_missing_ports && midiDevice.InPort.isNone then
    Except.error ("MIDI out port " ++ name ++ " not found")
  else
    Except.ok midiDevice

/-- Go: `n_pads := 8` in `main`. -/
def n_pads : Int := 8

/-- Go: `padsStateArray := NewPadsStateArray(n_pads, config.PadsConfig)` in `main`. -/
def startupPadsStateArray (pads_config : List PadConfig) : Option PadsStateArray :=
  NewPadsStateArray n_pads pads_config

/-- Go: the map assignment `m[k] = v` on a `map[uint8]int`, the map seen as its lookup. -/
def mapAssign (m : Nat → Option Int) (k : Nat) (v : Int) : Nat → Option Int :=
  fun c => if c = k then some v else m c

/-- The loop `for i, padConfig := range config.PadsConfig { m[padConfig.CC] = i }`,
started at index `i` with the map `m`. -/
def ccIndexLoop : List PadConfig → Nat → (Nat → Option Int) → (Nat → Option Int)
  | [], _, m => m
  | padConfig :: rest, i, m => ccIndexLoop rest (i + 1) (mapAssign m padConfig.CC (i : Int))

/-- Go: `ccToStateArrayIndex` as `main` builds it, starting from the empty map. -/
def ccToStateArrayIndex (pads_config : List PadConfig) : Nat → Option Int :=
  ccIndexLoop pads_config 0 (fun _ => none)

/-- What is handed to `Send`: an LED frame wrapped by `midi.SysEx`, or a message as received. -/
inductive Outgoing (Msg : Type) where
  | sysex (data : List Nat)
  | original (msg : Msg)
  deriving DecidableEq, Repr

/-- One call of `Send` on an output port. A failed send is only logged, so the
trace of calls is all that is recorded. -/
structure SendCall (Msg : Type) where
  port : Port
  message : Outgoing Msg
  deriving DecidableEq, Repr

/-- The callback `main` registers on the source input (lines 197-214). `GetControlChange`
is the library decoder: `some (ch, cc, value)` for a control-change message. The
listener runs once every port is open, so the out ports are given as ports. The
result is the matrix afterwards and the `Send` calls in order. -/
def sourceListener {Msg : Type} (mode : String)
    (GetControlChange : Msg → Option (Nat × Nat × Nat))
    (ccToIndex : Nat → Option Int) (sourceOut : Port) (targetOuts : List Port)
    (padsStateArray : PadsStateArray) (msg : Msg) :
    PadsStateArray × List (SendCall Msg) :=
  let forwards : List (SendCall Msg) := targetOuts.map (fun p => ⟨p, Outgoing.original msg⟩)
  if mode = "switch" then
    match GetControlChange msg with
    | some (_, cc, value) =>
      match ccToIndex cc with
      | some stateArrayIndex =>
        if value ≠ 0 then
          let updated := padsStateArray.Switch stateArrayIndex
          (updated, ⟨sourceOut, Outgoing.sysex updated.ToColorChangeSysEx⟩ :: forwards)
        else (padsStateArray, forwards)
      | none => (padsStateArray, forwards)
    | none => (padsStateArray, forwards)
  else (padsStateArray, forwards)

/-- Go: `matrix.GetElement(index).On = value`: a write through the returned pointer,
which is a nil dereference when `GetElement` returns nil. -/
def assignOnThroughGetElement (matrix : PadsStateArray) (index : Int) (value : Bool) :
    Option PadsStateArray :=
  match matrix.GetElement index with
  | none => none
  | some _ =>
    some { Elements := updateElement (fun e => { e with On := value }) matrix.Elements index.toNat }

/-- The `pdirty` loop of `update_pads_from_vm` over the entries of `vm_parameter_to_cc`
in the order `range` visits them. `GetString` returns the value and the error of the
console query; the error is logged and the loop body goes on with the value. -/
def pdirtyLoop (GetString : String → String × Option String) (ccToIndex : Nat → Option Int) :
    List (String × Nat) → PadsStateArray → Option PadsStateArray
  | [], matrix => some matrix
  | (parameter, cc) :: rest, matrix =>
    let (value, _err) := GetString parameter
    match ccToIndex cc with
    | some state_array_index =>
      match assignOnThroughGetElement matrix state_array_index (decide (value = "1.000")) with
      | none => none
      | some matrix1 => pdirtyLoop GetString ccToIndex rest matrix1
    | none => pdirtyLoop GetString ccToIndex rest matrix

/-- The `mdirty` loop of `update_pads_from_vm`. `ButtonState button` is
`vm.Button[button].State()`, `none` when that expression panics. -/
def mdirtyLoop (ButtonState : Int → Option Bool) (ccToIndex : Nat → Option Int) :
    List (Int × Nat) → PadsStateArray → Option PadsStateArray
  | [], matrix => some matrix
  | (button, cc) :: rest, matrix =>
    match ButtonState button with
    | none => none
    | some value =>
      match ccToIndex cc with
      | some state_array_index =>
        match assignOnThroughGetElement matrix state_array_index value with
        | none => none
        | some matrix1 => mdirtyLoop ButtonState ccToIndex rest matrix1
      | none => mdirtyLoop ButtonState ccToIndex rest matrix

/-- Go: `update_pads_from_vm`. The maps are given as their entries in visiting order.
The result is `none` when the call panics, else the matrix afterwards and the `Send`
calls made on the source output. -/
def update_pads_from_vm (s : String) (GetString : String → String × Option String)
    (ButtonState : Int → Option Bool)
    (vm_parameter_to_cc : List (String × Nat)) (vm_button_to_cc : List (Int × Nat))
    (cc_to_state_array_index : Nat → Option Int) (matrix : PadsStateArray)
    (sourceOut : Port) : Option (PadsStateArray × List (SendCall Unit)) :=
  if s = "pdirty" then
    match pdirtyLoop GetString cc_to_state_array_index vm_parameter_to_cc matrix with
    | none => none
    | some matrix1 => some (matrix1, [⟨sourceOut, Outgoing.sysex matrix1.ToColorChangeSysEx⟩])
  else if s = "mdirty" then
    match mdirtyLoop ButtonState cc_to_state_array_index vm_button_to_cc matrix with
    | none => none
    | some matrix1 => some (matrix1, [⟨sourceOut, Outgoing.sysex matrix1.ToColorChangeSysEx⟩])
  else some (matrix, [])

/-! ## The frame layout in the words of the specification -/

/-- The lit decision as the specification words it: `(on OR static)`, inverted by `reverse`. -/
def specLit (e : PadState) : Bool :=
  xor (e.On || e.Static) e.Reverse

/-- The colour block of a pad: high and low nibble of red, green and blue. -/
def specColourBlock (e : PadState) : List Nat :=
  [e.Color.Red >>> 4, e.Color.Red &&& 0x0F, e.Color.Green >>> 4, e.Color.Green &&& 0x0F,
    e.Color.Blue >>> 4, e.Color.Blue &&& 0x0F]

/-- The 6-byte block of one pad as the specification words it. -/
def specBlock (e : PadState) : List Nat :=
  if specLit e then specColourBlock e else [0, 0, 0, 0, 0, 0]

/-- The blocks of the pads, one after the other in index order. -/
def specBlocks : List PadState → List Nat
  | [] => []
  | e :: es => specBlock e ++ specBlocks es

/-- The frame as the specification words it: six header bytes, then the blocks. -/
def specFrame (m : PadsStateArray) : List Nat :=
  [0x47, 0x7F, 0x4C, 0x06, 0x00, 0x30] ++ specBlocks m.Elements

/-! ## Concrete configurations used in the examples -/

/-- A configuration with eight pads, cc 10 to 17, all red, none static or reversed. -/
def eightPadsConfig : List PadConfig :=
  [⟨10, (255, 0, 0), false, false⟩, ⟨11, (255, 0, 0), false, false⟩,
   ⟨12, (255, 0, 0), false, false⟩, ⟨13, (255, 0, 0), false, false⟩,
   ⟨14, (255, 0, 0), false, false⟩, ⟨15, (255, 0, 0), false, false⟩,
   ⟨16, (255, 0, 0), false, false⟩, ⟨17, (255, 0, 0), false, false⟩]

/-- A configuration with nine pads: `eightPadsConfig` and a ninth pad with cc 20. -/
def ninePadsConfig : List PadConfig :=
  eightPadsConfig ++ [⟨20, (0, 0, 255), false, false⟩]

/-- A configuration with three pads, cc 10 to 12. -/
def threePadsConfig : List PadConfig :=
  [⟨10, (255, 0, 0), false, false⟩, ⟨11, (0, 255, 0), false, false⟩,
   ⟨12, (0, 0, 255), false, false⟩]

/-- The matrix `main` builds from `eightPadsConfig`, written out. -/
def eightPadsOff : PadsStateArray :=
  ⟨List.replicate 8 ⟨false, ⟨255, 0, 0⟩, false, false⟩⟩

/-- The output port of the source device in the examples. -/
def lpd8Out : Port := ⟨"LPD8 1", 1⟩

/-- A console on which every parameter query fails: empty value and an error. -/
def failingGetString : String → String × Option String :=
  fun _ => ("", some "VBVMR_GetParameterStringA returned -3")

/-- A console on which every parameter reads `1.000` without error. -/
def allOnGetString : String → String × Option String :=
  fun _ => ("1.000", none)

/-! ## Lemmas on in-place slot assignment -/

theorem length_updateElement (f : PadState → PadState) (es : List PadState) (n : Nat) :
    (updateElement f es n).length = es.length := by
  induction es generalizing n with
  | nil => simp [updateElement]
  | cons e es ih =>
    cases n with
    | zero => simp [updateElement]
    | succ n => simp [updateElement, ih]

theorem get?_updateElement (f : PadState → PadState) (es : List PadState) (n j : Nat) :
    (updateElement f es n)[j]? = if j = n then es[j]?.map f else es[j]? := by
  induction es generalizing n j with
  | nil => simp [updateElement]
  | cons e es ih =>
    cases n with
    | zero =>
      cases j with
      | zero => simp [updateElement]
      | succ j => simp [updateElement]
    | succ n =>
      cases j with
      | zero => simp [updateElement]
      | succ j => simp [updateElement, ih]

theorem updateElement_updateElement (f g : PadState → PadState) (es : List PadState) (n : Nat) :
    updateElement f (updateElement g es n) n = updateElement (fun e => f (g e)) es n := by
  induction es generalizing n with
  | nil => simp [updateElement]
  | cons e es ih =>
    cases n with
    | zero => simp [updateElement]
    | succ n => simp [updateElement, ih]

theorem updateElement_of_fixed (f : PadState → PadState) (hf : ∀ e, f e = e)
    (es : List PadState) (n : Nat) : updateElement f es n = es := by
  induction es generalizing n with
  | nil => simp [updateElement]
  | cons e es ih =>
    cases n with
    | zero => simp [updateElement, hf]
    | succ n => simp [updateElement, ih]

theorem isValidPosition_iff (m : PadsStateArray) (index : Int) :
    m.isValidPosition index = true ↔ 0 ≤ index ∧ index < (m.Elements.length : Int) := by
  simp [PadsStateArray.isValidPosition]

theorem isValidPosition_updateElement (f : PadState → PadState) (m : PadsStateArray)
    (n : Nat) (index : Int) :
    PadsStateArray.isValidPosition ⟨updateElement f m.Elements n⟩ index
      = m.isValidPosition index := by
  simp [PadsStateArray.isValidPosition, length_updateElement]

/-! ## Nibble encoding -/

theorem nibbles_of_byte (b : Nat) (hb : b ≤ 255) :
    b >>> 4 ≤ 15 ∧ b &&& 0x0F ≤ 15 ∧ ((b >>> 4) <<< 4) ||| (b &&& 0x0F) = b := by
  interval_cases b <;> decide

/-- C2: for every 8-bit value `b`, `OneByteToTwoMidiBytes b` is a pair `(high, low)` of
nibbles (both at most 15) with `(high <<< 4) ||| low = b`; and for every colour with 8-bit
channels the six bytes of `ToAkaiBytes` are three such pairs, in the order red, green,
blue, each decoding back to the channel it came from. -/
theorem OneByteToTwoMidiBytes_roundtrip (b : Nat) (rgb : RGB) (hb : b ≤ 255)
    (hR : rgb.Red ≤ 255) (hG : rgb.Green ≤ 255) (hB : rgb.Blue ≤ 255) :
    ((OneByteToTwoMidiBytes b).1 ≤ 15 ∧ (OneByteToTwoMidiBytes b).2 ≤ 15 ∧
      ((OneByteToTwoMidiBytes b).1 <<< 4) ||| (OneByteToTwoMidiBytes b).2 = b) ∧
    ∃ rh rl gh gl bh bl : Nat,
      rgb.ToAkaiBytes = [rh, rl, gh, gl, bh, bl] ∧
      (rh ≤ 15 ∧ rl ≤ 15 ∧ gh ≤ 15 ∧ gl ≤ 15 ∧ bh ≤ 15 ∧ bl ≤ 15) ∧
      (rh <<< 4) ||| rl = rgb.Red ∧ (gh <<< 4) ||| gl = rgb.Green ∧
      (bh <<< 4) ||| bl = rgb.Blue := by
  obtain ⟨b1, b2, b3⟩ := nibbles_of_byte b hb
  obtain ⟨r1, r2, r3⟩ := nibbles_of_byte rgb.Red hR
  obtain ⟨g1, g2, g3⟩ := nibbles_of_byte rgb.Green hG
  obtain ⟨c1, c2, c3⟩ := nibbles_of_byte rgb.Blue hB
  refine ⟨⟨b1, b2, b3⟩, rgb.Red >>> 4, rgb.Red &&& 0x0F, rgb.Green >>> 4,
    rgb.Green &&& 0x0F, rgb.Blue >>> 4, rgb.Blue &&& 0x0F, ?_, ⟨r1, r2, g1, g2, c1, c2⟩,
    r3, g3, c3⟩
  simp [RGB.ToAkaiBytes, OneByteToTwoMidiBytes]

theorem OneByteToTwoMidiBytes_roundtrip_witness :
    ((OneByteToTwoMidiBytes 0xA7).1 ≤ 15 ∧ (OneByteToTwoMidiBytes 0xA7).2 ≤ 15 ∧
      ((OneByteToTwoMidiBytes 0xA7).1 <<< 4) ||| (OneByteToTwoMidiBytes 0xA7).2 = 0xA7) ∧
    ∃ rh rl gh gl bh bl : Nat,
      (RGB.mk 255 128 7).ToAkaiBytes = [rh, rl, gh, gl, bh, bl] ∧
      (rh ≤ 15 ∧ rl ≤ 15 ∧ gh ≤ 15 ∧ gl ≤ 15 ∧ bh ≤ 15 ∧ bl ≤ 15) ∧
      (rh <<< 4) ||| rl = (RGB.mk 255 128 7).Red ∧
      (gh <<< 4) ||| gl = (RGB.mk 255 128 7).Green ∧
      (bh <<< 4) ||| bl = (RGB.mk 255 128 7).Blue :=
  OneByteToTwoMidiBytes_roundtrip 0xA7 (RGB.mk 255 128 7) (by decide) (by decide)
    (by decide) (by decide)

/-- C9: for every matrix and every index outside `0 ≤ index < len`, negative ones included,
`Switch`, `TurnOn`, `TurnOff` and `SetColor` return the matrix unchanged; and for every
index `j`, in range or not, none of the four changes the number of pads. -/
theorem out_of_range_operations_are_noops (m : PadsStateArray) (index j : Int) (c : RGB)
    (hout : ¬ (0 ≤ index ∧ index < (m.Elements.length : Int))) :
    (m.Switch index = m ∧ m.TurnOn index = m ∧ m.TurnOff index = m ∧
      m.SetColor index c = m) ∧
    ((m.Switch j).Elements.length = m.Elements.length ∧
      (m.TurnOn j).Elements.length = m.Elements.length ∧
      (m.TurnOff j).Elements.length = m.Elements.length ∧
      (m.SetColor j c).Elements.length = m.Elements.length) := by
  have hv : m.isValidPosition index = false := by
    rw [← Bool.not_eq_true, isValidPosition_iff]
    exact hout
  refine ⟨⟨?_, ?_, ?_, ?_⟩, ?_, ?_, ?_, ?_⟩
  · simp [PadsStateArray.Switch, hv]
  · simp [PadsStateArray.TurnOn, hv]
  · simp [PadsStateArray.TurnOff, hv]
  · simp [PadsStateArray.SetColor, hv]
  · unfold PadsStateArray.Switch
    split <;> simp [length_updateElement]
  · unfold PadsStateArray.TurnOn
    split <;> simp [length_updateElement]
  · unfold PadsStateArray.TurnOff
    split <;> simp [length_updateElement]
  · unfold PadsStateArray.SetColor
    split <;> simp [length_updateElement]

theorem out_of_range_operations_are_noops_witness :
    (((PadsStateArray.mk [⟨true, ⟨1, 2, 3⟩, false, true⟩]).Switch (-1)
        = PadsStateArray.mk [⟨true, ⟨1, 2, 3⟩, false, true⟩] ∧
      (PadsStateArray.mk [⟨true, ⟨1, 2, 3⟩, false, true⟩]).TurnOn (-1)
        = PadsStateArray.mk [⟨true, ⟨1, 2, 3⟩, false, true⟩] ∧
      (PadsStateArray.mk [⟨true, ⟨1, 2, 3⟩, false, true⟩]).TurnOff (-1)
        = PadsStateArray.mk [⟨true, ⟨1, 2, 3⟩, false, true⟩] ∧
      (PadsStateArray.mk [⟨true, ⟨1, 2, 3⟩, false, true⟩]).SetColor (-1) ⟨9, 9, 9⟩
        = PadsStateArray.mk [⟨true, ⟨1, 2, 3⟩, false, true⟩]) ∧
    (((PadsStateArray.mk [⟨true, ⟨1, 2, 3⟩, false, true⟩]).Switch 0).Elements.length
        = (PadsStateArray.mk [⟨true, ⟨1, 2, 3⟩, false, true⟩]).Elements.length ∧
      ((PadsStateArray.mk [⟨true, ⟨1, 2, 3⟩, false, true⟩]).TurnOn 0).Elements.length
        = (PadsStateArray.mk [⟨true, ⟨1, 2, 3⟩, false, true⟩]).Elements.length ∧
      ((PadsStateArray.mk [⟨true, ⟨1, 2, 3⟩, false, true⟩]).TurnOff 0).Elements.length
        = (PadsStateArray.mk [⟨true, ⟨1, 2, 3⟩, false, true⟩]).Elements.length ∧
      ((PadsStateArray.mk [⟨true, ⟨1, 2, 3⟩, false, true⟩]).SetColor 0 ⟨9, 9, 9⟩).Elements.length
        = (PadsStateArray.mk [⟨true, ⟨1, 2, 3⟩, false, true⟩]).Elements.length)) :=
  out_of_range_operations_are_noops (PadsStateArray.mk [⟨true, ⟨1, 2, 3⟩, false, true⟩])
    (-1) 0 ⟨9, 9, 9⟩ (by decide)

/-- The effect of `Switch` on each slot: slot `index` has its `On` negated, the others
are as before. -/
theorem Switch_get? (m : PadsStateArray) (index : Int) (j : Nat) (e : PadState)
    (hj : m.Elements[j]? = some e) :
    (m.Switch index).Elements[j]? =
      some (if (j : Int) = index then { e with On := !e.On } else e) := by
  unfold PadsStateArray.Switch
  by_cases hv : m.isValidPosition index = true
  · rw [if_pos hv]
    have h := (isValidPosition_iff m index).1 hv
    have hcast : ((j : Int) = index) ↔ j = index.toNat := by omega
    simp only [get?_updateElement, hj, Option.map_some', hcast]
    split <;> rfl
  · rw [if_neg hv]
    have hlt : j < m.Elements.length := by
      by_contra hge
      rw [List.getElem?_eq_none (by omega)] at hj
      cases hj
    have hne : ¬ ((j : Int) = index) := by
      intro heq
      apply hv
      rw [isValidPosition_iff]
      omega
    simp [hj, hne]

/-- C10: for every matrix and every valid index `i`, `Switch i` negates the `On` flag of
pad `i` and leaves every other pad, every other field and the length as they were, and
`Switch i` applied twice gives back the original matrix (so pad `i` has its prior `On`). -/
theorem Switch_twice (m : PadsStateArray) (i : Int)
    (h0 : 0 ≤ i) (h1 : i < (m.Elements.length : Int)) :
    (m.Switch i).Switch i = m ∧
    (m.Switch i).Elements.length = m.Elements.length ∧
    ∀ (j : Nat) (e : PadState), m.Elements[j]? = some e →
      (m.Switch i).Elements[j]? =
        some (if (j : Int) = i then { e with On := !e.On } else e) := by
  refine ⟨?_, ?_, fun j e hj => Switch_get? m i j e hj⟩
  · have hv : m.isValidPosition i = true := (isValidPosition_iff m i).2 ⟨h0, h1⟩
    have hv2 : PadsStateArray.isValidPosition
        ⟨updateElement (fun e => { e with On := !e.On }) m.Elements i.toNat⟩ i = true := by
      rw [isValidPosition_updateElement]
      exact hv
    simp only [PadsStateArray.Switch, hv, hv2, if_true, updateElement_updateElement]
    rw [updateElement_of_fixed]
    intro e
    cases e
    simp
  · unfold PadsStateArray.Switch
    split <;> simp [length_updateElement]

theorem Switch_twice_witness :
    ((PadsStateArray.mk [⟨false, ⟨255, 0, 0⟩, false, false⟩, ⟨true, ⟨0, 9, 0⟩, true, false⟩]).Switch
        1).Switch 1
      = PadsStateArray.mk [⟨false, ⟨255, 0, 0⟩, false, false⟩, ⟨true, ⟨0, 9, 0⟩, true, false⟩] ∧
    ((PadsStateArray.mk [⟨false, ⟨255, 0, 0⟩, false, false⟩, ⟨true, ⟨0, 9, 0⟩, true, false⟩]).Switch
        1).Elements.length
      = (PadsStateArray.mk
          [⟨false, ⟨255, 0, 0⟩, false, false⟩, ⟨true, ⟨0, 9, 0⟩, true, false⟩]).Elements.length ∧
    ∀ (j : Nat) (e : PadState),
      (PadsStateArray.mk
          [⟨false, ⟨255, 0, 0⟩, false, false⟩, ⟨true, ⟨0, 9, 0⟩, true, false⟩]).Elements[j]?
        = some e →
      ((PadsStateArray.mk
          [⟨false, ⟨255, 0, 0⟩, false, false⟩, ⟨true, ⟨0, 9, 0⟩, true, false⟩]).Switch
            1).Elements[j]?
        = some (if (j : Int) = 1 then { e with On := !e.On } else e) :=
  Switch_twice
    (PadsStateArray.mk [⟨false, ⟨255, 0, 0⟩, false, false⟩, ⟨true, ⟨0, 9, 0⟩, true, false⟩])
    1 (by decide) (by decide)

/-! ## The LED frame -/

theorem sysexStep_eq (sysex : List Nat) (e : PadState) :
    sysexStep sysex e = sysex ++ specBlock e := by
  cases e with
  | mk o c r t =>
    cases o <;> cases r <;> cases t <;>
      simp [sysexStep, specBlock, specLit, specColourBlock, RGB.ToAkaiBytes,
        OneByteToTwoMidiBytes]

theorem foldl_sysexStep (es : List PadState) (acc : List Nat) :
    es.foldl sysexStep acc = acc ++ specBlocks es := by
  induction es generalizing acc with
  | nil => simp [specBlocks]
  | cons e es ih => simp [List.foldl, ih, sysexStep_eq, specBlocks]

theorem length_specBlock (e : PadState) : (specBlock e).length = 6 := by
  unfold specBlock specColourBlock
  split <;> rfl

theorem length_specBlocks (es : List PadState) : (specBlocks es).length = 6 * es.length := by
  induction es with
  | nil => rfl
  | cons e es ih =>
    simp only [specBlocks, List.length_append, List.length_cons, length_specBlock, ih]
    omega

/-- The blocks of a matrix split around slot `i`. -/
theorem specBlocks_split (es : List PadState) (i : Nat) (e : PadState)
    (hi : es[i]? = some e) :
    ∃ before after : List Nat, before.length = 6 * i ∧
      specBlocks es = before ++ specBlock e ++ after ∧
      ∀ f : PadState → PadState,
        specBlocks (updateElement f es i) = before ++ specBlock (f e) ++ after := by
  induction es generalizing i with
  | nil => simp at hi
  | cons a es ih =>
    cases i with
    | zero =>
      simp at hi
      subst hi
      exact ⟨[], specBlocks es, rfl, by simp [specBlocks], fun f => by simp [specBlocks, updateElement]⟩
    | succ i =>
      simp at hi
      obtain ⟨before, after, hlen, hsplit, hupd⟩ := ih i hi
      refine ⟨specBlock a ++ before, after, ?_, ?_, ?_⟩
      · simp only [List.length_append, length_specBlock, hlen]
        omega
      · simp [specBlocks, hsplit]
      · intro f
        simp [specBlocks, updateElement, hupd f]

/-- C1: for every matrix with `N` pads the frame is the six header bytes
`47 7F 4C 06 00 30` followed, pad by pad in index order, by one 6-byte block: the
nibbles `[R>>4, R&0x0F, G>>4, G&0x0F, B>>4, B&0x0F]` of the pad's colour when
`(On OR Static) XOR Reverse` holds, six zero bytes otherwise. The frame has length
`6 + 6*N`; the block of pad `i` sits at offset `6 + 6*i`; and negating only `Reverse` of
pad `i` leaves all other bytes of the frame as they were and puts at that offset the
other one of the pad's two blocks. -/
theorem ToColorChangeSysEx_layout (m : PadsStateArray) :
    m.ToColorChangeSysEx = specFrame m ∧
    m.ToColorChangeSysEx.length = 6 + 6 * m.Elements.length ∧
    ∀ (i : Nat) (e : PadState), m.Elements[i]? = some e →
      (m.ToColorChangeSysEx.drop (6 + 6 * i)).take 6 = specBlock e ∧
      PadsStateArray.ToColorChangeSysEx
          ⟨updateElement (fun p => { p with Reverse := !p.Reverse }) m.Elements i⟩
        = m.ToColorChangeSysEx.take (6 + 6 * i)
          ++ (if specLit e then [0, 0, 0, 0, 0, 0] else specColourBlock e)
          ++ m.ToColorChangeSysEx.drop (6 + 6 * i + 6) := by
  have hframe : ∀ m : PadsStateArray, m.ToColorChangeSysEx = specFrame m := by
    intro m
    simp [PadsStateArray.ToColorChangeSysEx, specFrame, foldl_sysexStep]
  refine ⟨hframe m, ?_, ?_⟩
  · rw [hframe]
    simp only [specFrame, List.length_append, length_specBlocks, List.length_cons,
      List.length_nil]
  · intro i e hi
    obtain ⟨before, after, hlen, hsplit, hupd⟩ := specBlocks_split m.Elements i e hi
    have hflip : specBlock { e with Reverse := !e.Reverse }
        = if specLit e then [0, 0, 0, 0, 0, 0] else specColourBlock e := by
      cases e with
      | mk o c r t =>
        cases o <;> cases r <;> cases t <;> simp [specBlock, specLit, specColourBlock]
    have hhead : ([0x47, 0x7F, 0x4C, 0x06, 0x00, 0x30] ++ before : List Nat).length
        = 6 + 6 * i := by
      simp [hlen]
      omega
    have hhead6 : (([0x47, 0x7F, 0x4C, 0x06, 0x00, 0x30] ++ before : List Nat)
        ++ specBlock e).length = 6 + 6 * i + 6 := by
      rw [List.length_append, hhead, length_specBlock]
    have hfull : m.ToColorChangeSysEx
        = ([0x47, 0x7F, 0x4C, 0x06, 0x00, 0x30] ++ before) ++ (specBlock e ++ after) := by
      rw [hframe]
      simp [specFrame, hsplit]
    have hfull6 : m.ToColorChangeSysEx
        = (([0x47, 0x7F, 0x4C, 0x06, 0x00, 0x30] ++ before) ++ specBlock e) ++ after := by
      rw [hfull]
      simp
    constructor
    · rw [hfull, ← hhead, List.drop_left, ← length_specBlock e, List.take_left]
    · rw [hframe]
      have htake : m.ToColorChangeSysEx.take (6 + 6 * i)
          = [0x47, 0x7F, 0x4C, 0x06, 0x00, 0x30] ++ before := by
        rw [hfull, ← hhead, List.take_left]
      have hdrop : m.ToColorChangeSysEx.drop (6 + 6 * i + 6) = after := by
        rw [hfull6, ← hhead6, List.drop_left]
      rw [htake, hdrop, ← hflip]
      simp [specFrame, hupd]

/-! ## The cc to index lookup -/

theorem ccIndexLoop_none (l : List PadConfig) (i0 : Nat) (m : Nat → Option Int) (c : Nat) :
    ccIndexLoop l i0 m c = none ↔ (∀ pc ∈ l, pc.CC ≠ c) ∧ m c = none := by
  induction l generalizing i0 m with
  | nil => simp [ccIndexLoop]
  | cons p rest ih =>
    rw [ccIndexLoop, ih]
    by_cases hc : c = p.CC
    · subst hc
      simp [mapAssign]
    · have hc2 : ¬ p.CC = c := fun h => hc h.symm
      simp [mapAssign, hc, hc2]

theorem ccIndexLoop_some (l : List PadConfig) (i0 : Nat) (m : Nat → Option Int) (c : Nat)
    (v : Int) :
    ccIndexLoop l i0 m c = some v ↔
      (∃ (k : Nat) (pc : PadConfig), l[k]? = some pc ∧ pc.CC = c ∧
          (∀ (j : Nat) (pc2 : PadConfig), k < j → l[j]? = some pc2 → pc2.CC ≠ c) ∧
          v = ((i0 + k : Nat) : Int)) ∨
      ((∀ pc ∈ l, pc.CC ≠ c) ∧ m c = some v) := by
  induction l generalizing i0 m with
  | nil => simp [ccIndexLoop]
  | cons p rest ih =>
    rw [ccIndexLoop, ih]
    constructor
    · rintro (⟨k, pc, hk, hcc, hlast, hv⟩ | ⟨hnone, hm⟩)
      · refine Or.inl ⟨k + 1, pc, by simpa using hk, hcc, ?_, ?_⟩
        · intro j pc2 hj hj2
          cases j with
          | zero => omega
          | succ j =>
            rw [List.getElem?_cons_succ] at hj2
            exact hlast j pc2 (by omega) hj2
        · rw [hv]
          congr 1
          omega
      · by_cases hc : c = p.CC
        · refine Or.inl ⟨0, p, by simp, hc.symm, ?_, ?_⟩
          · intro j pc2 hj hj2
            cases j with
            | zero => omega
            | succ j =>
              rw [List.getElem?_cons_succ] at hj2
              exact hnone pc2 (List.mem_iff_getElem?.2 ⟨j, hj2⟩)
          · simp [mapAssign, hc] at hm
            simp [← hm]
        · refine Or.inr ⟨?_, ?_⟩
          · intro pc hpc
            rcases List.mem_cons.1 hpc with h | h
            · rw [h]
              exact fun h2 => hc h2.symm
            · exact hnone pc h
          · simpa [mapAssign, hc] using hm
    · rintro (⟨k, pc, hk, hcc, hlast, hv⟩ | ⟨hnone, hm⟩)
      · cases k with
        | zero =>
          simp at hk
          subst hk
          refine Or.inr ⟨?_, ?_⟩
          · intro pc hpc
            obtain ⟨j, hj⟩ := List.mem_iff_getElem?.1 hpc
            exact hlast (j + 1) pc (by omega) (by simpa using hj)
          · simp [mapAssign, hcc, hv]
        | succ k =>
          refine Or.inl ⟨k, pc, by simpa using hk, hcc, ?_, ?_⟩
          · intro j pc2 hj hj2
            exact hlast (j + 1) pc2 (by omega) (by simpa using hj2)
          · rw [hv]
            congr 1
            omega
      · refine Or.inr ⟨fun pc hpc => hnone pc (List.mem_cons_of_mem _ hpc), ?_⟩
        have hc : ¬ c = p.CC := fun h => hnone p (List.mem_cons_self _ _) h.symm
        simpa [mapAssign, hc] using hm

/-- Every index in the lookup built at startup is the index of a configured pad. -/
theorem ccToStateArrayIndex_lt_length (pads_config : List PadConfig) (c : Nat) (i : Int)
    (h : ccToStateArrayIndex pads_config c = some i) :
    0 ≤ i ∧ i < (pads_config.length : Int) := by
  rw [ccToStateArrayIndex, ccIndexLoop_some] at h
  rcases h with ⟨k, pc, hk, _, _, hv⟩ | ⟨_, hm⟩
  · have hlt : k < pads_config.length := by
      by_contra hge
      rw [List.getElem?_eq_none (by omega)] at hk
      cases hk
    omega
  · simp at hm

/-- Two ccs that the lookup built at startup sends to the same index are equal. -/
theorem ccToStateArrayIndex_injective (pads_config : List PadConfig) (c1 c2 : Nat) (i : Int)
    (h1 : ccToStateArrayIndex pads_config c1 = some i)
    (h2 : ccToStateArrayIndex pads_config c2 = some i) : c1 = c2 := by
  rw [ccToStateArrayIndex, ccIndexLoop_some] at h1 h2
  rcases h1 with ⟨k1, pc1, hk1, hc1, _, hv1⟩ | ⟨_, hm⟩
  · rcases h2 with ⟨k2, pc2, hk2, hc2, _, hv2⟩ | ⟨_, hm⟩
    · have hk : k1 = k2 := by omega
      subst hk
      rw [hk1] at hk2
      cases hk2
      rw [← hc1, ← hc2]
    · simp at hm
  · simp at hm

/-- C8: for every pad configuration list, the lookup built at startup maps a cc `c` to
index `i` exactly when `i` is the largest index whose configured pad has cc `c` (on
duplicates the later-declared pad wins), and `c` is absent from the lookup exactly when
no configured pad has cc `c`. -/
theorem ccToStateArrayIndex_last_wins (pads_config : List PadConfig) (c : Nat) :
    (∀ i : Int, ccToStateArrayIndex pads_config c = some i ↔
      ∃ (k : Nat) (pc : PadConfig), i = (k : Int) ∧ pads_config[k]? = some pc ∧ pc.CC = c ∧
        ∀ (j : Nat) (pc2 : PadConfig), k < j → pads_config[j]? = some pc2 → pc2.CC ≠ c) ∧
    (ccToStateArrayIndex pads_config c = none ↔ ∀ pc ∈ pads_config, pc.CC ≠ c) := by
  constructor
  · intro i
    rw [ccToStateArrayIndex, ccIndexLoop_some]
    constructor
    · rintro (⟨k, pc, hk, hcc, hlast, hv⟩ | ⟨_, hm⟩)
      · exact ⟨k, pc, by simpa using hv, hk, hcc, hlast⟩
      · simp at hm
    · rintro ⟨k, pc, hv, hk, hcc, hlast⟩
      exact Or.inl ⟨k, pc, hk, hcc, hlast, by simpa using hv⟩
  · rw [ccToStateArrayIndex, ccIndexLoop_none]
    simp

/-! ## Construction of the matrix at startup -/

theorem newPadsLoop_ok (pads_config : List PadConfig) (todo i : Nat)
    (h : i + todo ≤ pads_config.length) :
    ∃ es : List PadState, newPadsLoop pads_config todo i = some es ∧ es.length = todo ∧
      ∀ (k : Nat) (pc : PadConfig), k < todo → pads_config[i + k]? = some pc →
        es[k]? = some { On := false, Color := ⟨pc.RGB.1, pc.RGB.2.1, pc.RGB.2.2⟩,
                        Reverse := pc.Reverse, Static := pc.Static } := by
  induction todo generalizing i with
  | zero => exact ⟨[], rfl, rfl, fun k pc hk => by omega⟩
  | succ todo ih =>
    obtain ⟨rest, hrest, hlen, hget⟩ := ih (i + 1) (by omega)
    have hi : i < pads_config.length := by omega
    have hpc : pads_config.get? i = some pads_config[i] := by
      simp [List.getElem?_eq_getElem hi]
    refine ⟨{ On := false,
              Color := ⟨pads_config[i].RGB.1, pads_config[i].RGB.2.1, pads_config[i].RGB.2.2⟩,
              Reverse := pads_config[i].Reverse, Static := pads_config[i].Static } :: rest,
      by simp only [newPadsLoop, hpc, hrest], by simp [hlen], ?_⟩
    intro k pc hk hkpc
    cases k with
    | zero =>
      simp [List.getElem?_eq_getElem hi] at hkpc
      simp [hkpc]
    | succ k =>
      rw [List.getElem?_cons_succ]
      apply hget k pc (by omega)
      rw [← hkpc]
      congr 1
      omega

/-- C6, as the code has it: for every configuration with at least eight pads the matrix
built at startup exists, has the fixed length `n_pads = 8`, and each pad `i < 8` starts
with `On = false`, the colour, `Static` and `Reverse` of `pads_config[i]`. -/
theorem startupPadsStateArray_of_eight (pads_config : List PadConfig)
    (h : 8 ≤ pads_config.length) :
    ∃ m : PadsStateArray, startupPadsStateArray pads_config = some m ∧
      (m.Elements.length : Int) = n_pads ∧ m.Elements.length = 8 ∧
      ∀ i : Nat, i < 8 → ∃ pc : PadConfig, pads_config[i]? = some pc ∧
        m.Elements[i]? = some { On := false, Color := ⟨pc.RGB.1, pc.RGB.2.1, pc.RGB.2.2⟩,
                                Reverse := pc.Reverse, Static := pc.Static } := by
  obtain ⟨es, hes, hlen, hget⟩ := newPadsLoop_ok pads_config 8 0 (by omega)
  refine ⟨⟨es⟩, ?_, by simp [hlen, n_pads], hlen, ?_⟩
  · have h8 : (8 : Int).toNat = 8 := rfl
    simp [startupPadsStateArray, NewPadsStateArray, n_pads, h8, hes]
  · intro i hi
    have hi2 : i < pads_config.length := by omega
    refine ⟨pads_config[i], List.getElem?_eq_getElem hi2, ?_⟩
    apply hget i _ hi
    simp [List.getElem?_eq_getElem hi2]

theorem startupPadsStateArray_of_eight_witness :
    ∃ m : PadsStateArray, startupPadsStateArray eightPadsConfig = some m ∧
      (m.Elements.length : Int) = n_pads ∧ m.Elements.length = 8 ∧
      ∀ i : Nat, i < 8 → ∃ pc : PadConfig, eightPadsConfig[i]? = some pc ∧
        m.Elements[i]? = some { On := false, Color := ⟨pc.RGB.1, pc.RGB.2.1, pc.RGB.2.2⟩,
                                Reverse := pc.Reverse, Static := pc.Static } :=
  startupPadsStateArray_of_eight eightPadsConfig (by decide)

/-- C6 fails as stated: with three configured pads the construction panics, and with nine
configured pads the matrix has eight pads, not nine. -/
theorem startupPadsStateArray_not_config_length :
    startupPadsStateArray threePadsConfig = none ∧
    (startupPadsStateArray ninePadsConfig).map (fun m => m.Elements.length) = some 8 ∧
    ninePadsConfig.length = 9 := by
  decide

/-! ## Device lookup -/

/-- Without a matching input port and with missing ports not allowed, the call fails. -/
theorem NewMidiDeviceFromName_in_missing (name : String) (inPorts outPorts : List Port)
    (h : firstMatchingPort name inPorts = none) :
    NewMidiDeviceFromName name inPorts outPorts false
      = Except.error ("MIDI in port " ++ name ++ " not found") := by
  simp [NewMidiDeviceFromName, h]

/-- With a matching input port the call succeeds whatever the output ports are: the
device carries the first matching output port, or nil when there is none. -/
theorem NewMidiDeviceFromName_in_found (name : String) (inPorts outPorts : List Port)
    (allow_missing_ports : Bool) (p : Port) (h : firstMatchingPort name inPorts = some p) :
    NewMidiDeviceFromName name inPorts outPorts allow_missing_ports
      = Except.ok ⟨name, some p, firstMatchingPort name outPorts⟩ := by
  simp [NewMidiDeviceFromName, h]

/-- C7, the code at the failing input: the input port `LPD8 0` matches, no output port
does, missing ports are not allowed, and the call returns a device whose `OutPort` is
nil instead of an error. -/
theorem NewMidiDeviceFromName_missing_out_port :
    NewMidiDeviceFromName "LPD8" [⟨"LPD8 0", 0⟩] [⟨"Other 1", 0⟩] false
      = Except.ok ⟨"LPD8", some ⟨"LPD8 0", 0⟩, none⟩ := by
  rfl

/-! ## Console synchronisation -/

theorem assignOnThroughGetElement_in_range (m : PadsStateArray) (i : Int) (v : Bool)
    (h0 : 0 ≤ i) (h1 : i < (m.Elements.length : Int)) :
    assignOnThroughGetElement m i v
      = some ⟨updateElement (fun e => { e with On := v }) m.Elements i.toNat⟩ := by
  have hv : m.isValidPosition i = true := (isValidPosition_iff m i).2 ⟨h0, h1⟩
  have hlt : i.toNat < m.Elements.length := by omega
  simp [assignOnThroughGetElement, PadsStateArray.GetElement, hv,
    List.getElem?_eq_getElem hlt]

theorem assignOnThroughGetElement_out_of_range (m : PadsStateArray) (i : Int) (v : Bool)
    (hout : ¬ (0 ≤ i ∧ i < (m.Elements.length : Int))) :
    assignOnThroughGetElement m i v = none := by
  have hv : m.isValidPosition i = false := by
    rw [← Bool.not_eq_true, isValidPosition_iff]
    exact hout
  simp [assignOnThroughGetElement, PadsStateArray.GetElement, hv]

/-- The `pdirty` loop when every index the table reaches is a valid index and no pad is
reached by two entries: the loop ends without panic, each reached pad has `On` equal to
"the value read for its parameter is `1.000`", each other pad is as before. The error of
a query plays no role: the value returned with it is used all the same. -/
theorem pdirtyLoop_in_range (GetString : String → String × Option String)
    (ccToIndex : Nat → Option Int) (table : List (String × Nat)) (m : PadsStateArray)
    (hrange : ∀ p ∈ table, ∀ i : Int, ccToIndex p.2 = some i →
      0 ≤ i ∧ i < (m.Elements.length : Int))
    (hone : table.Pairwise (fun a b => ∀ i j : Int, ccToIndex a.2 = some i →
      ccToIndex b.2 = some j → i ≠ j)) :
    ∃ m1 : PadsStateArray, pdirtyLoop GetString ccToIndex table m = some m1 ∧
      m1.Elements.length = m.Elements.length ∧
      ∀ (j : Nat) (e : PadState), m.Elements[j]? = some e →
        (∀ p ∈ table, ccToIndex p.2 = some (j : Int) →
          m1.Elements[j]? = some { e with On := decide ((GetString p.1).1 = "1.000") }) ∧
        ((∀ p ∈ table, ccToIndex p.2 ≠ some (j : Int)) → m1.Elements[j]? = some e) := by
  induction table generalizing m with
  | nil => exact ⟨m, rfl, rfl, fun j e hj => ⟨fun p hp => by simp at hp, fun _ => hj⟩⟩
  | cons hd rest ih =>
    obtain ⟨parameter, cc⟩ := hd
    rw [List.pairwise_cons] at hone
    obtain ⟨hhead, htail⟩ := hone
    cases hcc : ccToIndex cc with
    | none =>
      obtain ⟨m1, hloop, hlen, hpads⟩ :=
        ih m (fun p hp => hrange p (List.mem_cons_of_mem _ hp)) htail
      refine ⟨m1, by simp [pdirtyLoop, hcc, hloop], hlen, ?_⟩
      intro j e hj
      obtain ⟨hreached, hother⟩ := hpads j e hj
      refine ⟨?_, fun hno => hother (fun p hp => hno p (List.mem_cons_of_mem _ hp))⟩
      intro p hp hpj
      rcases List.mem_cons.1 hp with h | h
      · subst h
        simp [hcc] at hpj
      · exact hreached p h hpj
    | some i =>
      obtain ⟨h0, h1⟩ := hrange (parameter, cc) (List.mem_cons_self _ _) i hcc
      have hassign := assignOnThroughGetElement_in_range m i
        (decide ((GetString parameter).1 = "1.000")) h0 h1
      obtain ⟨m1, hloop, hlen, hpads⟩ :=
        ih ⟨updateElement (fun e => { e with On := decide ((GetString parameter).1 = "1.000") })
              m.Elements i.toNat⟩
          (fun p hp k hk => by
            simpa [length_updateElement] using hrange p (List.mem_cons_of_mem _ hp) k hk)
          htail
      refine ⟨m1, by simp [pdirtyLoop, hcc, hassign, hloop], ?_, ?_⟩
      · simpa [length_updateElement] using hlen
      · intro j e hj
        constructor
        · intro p hp hpj
          rcases List.mem_cons.1 hp with h | h
          · subst h
            have hij : i = (j : Int) := by
              simp only [hcc, Option.some.injEq] at hpj
              exact hpj
            have hjn : j = i.toNat := by omega
            have hnone : ∀ q ∈ rest, ccToIndex q.2 ≠ some (j : Int) := by
              intro q hq hqj
              exact hhead q hq i (j : Int) hcc hqj hij
            refine (hpads j { e with On := decide ((GetString parameter).1 = "1.000") }
              ?_).2 hnone
            rw [get?_updateElement, if_pos hjn, hj]
            rfl
          · have hne : j ≠ i.toNat := by
              intro hjn
              have hij : i = (j : Int) := by omega
              exact hhead p h i (j : Int) hcc hpj hij
            refine (hpads j e ?_).1 p h hpj
            simp [get?_updateElement, hne, hj]
        · intro hno
          have hne : j ≠ i.toNat := by
            intro hjn
            have hij : i = (j : Int) := by omega
            exact hno (parameter, cc) (List.mem_cons_self _ _) (by simp [hcc, hij])
          refine (hpads j e ?_).2 (fun p hp => hno p (List.mem_cons_of_mem _ hp))
          simp [get?_updateElement, hne, hj]

/-- A `pdirty` sync when every index the table reaches is a valid index and no pad is
reached by two entries: the call returns, each reached pad has `On` exactly when the
string read for its parameter is `1.000`, every other pad is as before, no pad changes
`Color`, `Static` or `Reverse`, and one frame, that of the final matrix, is sent. -/
theorem pdirty_sync_in_range (GetString : String → String × Option String)
    (ButtonState : Int → Option Bool) (table : List (String × Nat))
    (buttons : List (Int × Nat)) (ccToIndex : Nat → Option Int) (m : PadsStateArray)
    (sourceOut : Port)
    (hrange : ∀ p ∈ table, ∀ i : Int, ccToIndex p.2 = some i →
      0 ≤ i ∧ i < (m.Elements.length : Int))
    (hone : table.Pairwise (fun a b => ∀ i j : Int, ccToIndex a.2 = some i →
      ccToIndex b.2 = some j → i ≠ j)) :
    ∃ m1 : PadsStateArray,
      update_pads_from_vm "pdirty" GetString ButtonState table buttons ccToIndex m sourceOut
        = some (m1, [⟨sourceOut, Outgoing.sysex m1.ToColorChangeSysEx⟩]) ∧
      m1.Elements.length = m.Elements.length ∧
      ∀ (j : Nat) (e : PadState), m.Elements[j]? = some e →
        (∀ p ∈ table, ccToIndex p.2 = some (j : Int) →
          m1.Elements[j]? = some { e with On := decide ((GetString p.1).1 = "1.000") }) ∧
        ((∀ p ∈ table, ccToIndex p.2 ≠ some (j : Int)) → m1.Elements[j]? = some e) := by
  obtain ⟨m1, hloop, hlen, hpads⟩ := pdirtyLoop_in_range GetString ccToIndex table m hrange hone
  exact ⟨m1, by simp [update_pads_from_vm, hloop], hlen, hpads⟩

/-- C4, the code at the failing input: the matrix is the one built from eight configured
pads with pad 0 turned on, the only parameter maps to cc 10, the cc of pad 0, and its
query fails; the sync does not skip the entry, it overwrites pad 0 with `On = false`
and sends the frame of that matrix. -/
theorem pdirty_failed_query_overwrites :
    startupPadsStateArray eightPadsConfig = some eightPadsOff ∧
    ccToStateArrayIndex eightPadsConfig 10 = some 0 ∧
    failingGetString "Strip[0].Mute" = ("", some "VBVMR_GetParameterStringA returned -3") ∧
    update_pads_from_vm "pdirty" failingGetString (fun _ => some false)
        [("Strip[0].Mute", 10)] [] (ccToStateArrayIndex eightPadsConfig)
        (eightPadsOff.TurnOn 0) lpd8Out
      = some (eightPadsOff, [⟨lpd8Out, Outgoing.sysex eightPadsOff.ToColorChangeSysEx⟩]) ∧
    (eightPadsOff.TurnOn 0).GetElement 0 = some ⟨true, ⟨255, 0, 0⟩, false, false⟩ ∧
    eightPadsOff.GetElement 0 = some ⟨false, ⟨255, 0, 0⟩, false, false⟩ := by
  decide

/-- C5, the code at the failing input: nine pads are configured, the matrix has eight, the
parameter maps to the cc of the ninth pad, whose index is 8; `GetElement 8` is nil and
the assignment through it panics before any frame is sent. -/
theorem pdirty_ninth_pad_panics :
    startupPadsStateArray ninePadsConfig = some eightPadsOff ∧
    ccToStateArrayIndex ninePadsConfig 20 = some 8 ∧
    eightPadsOff.GetElement 8 = none ∧
    update_pads_from_vm "pdirty" allOnGetString (fun _ => some false)
        [("Strip[0].Mute", 20)] [] (ccToStateArrayIndex ninePadsConfig)
        eightPadsOff lpd8Out = none := by
  decide

/-! ## The source listener in switch mode -/

/-- C3: in switch mode, for every matrix, lookup, source output and list of target
outputs: a control-change message with nonzero value whose cc the lookup maps to `i`
makes the listener replace the matrix by `Switch i` of it (pad `i` has `On` negated, every
other pad and the length are as before), send the frame of the updated matrix to the
source output and then the original message to every target output; a control-change
with value 0 or with an unmapped cc leaves the matrix as it was and only forwards the
message to the targets. On the 3-pad matrix whose first pad is red, all pads off, not
static, not reversed, the message cc 10, value 127 with cc 10 mapped to index 0 turns
pad 0 on and the frame sent is `47 7F 4C 06 00 30 0F 0F 00 00 00 00` and 12 zero bytes. -/
theorem sourceListener_switch_mode {Msg : Type}
    (GetControlChange : Msg → Option (Nat × Nat × Nat)) (ccToIndex : Nat → Option Int)
    (sourceOut : Port) (targetOuts : List Port) (m : PadsStateArray) (msg : Msg) :
    (∀ (ch cc value : Nat) (i : Int), GetControlChange msg = some (ch, cc, value) →
        value ≠ 0 → ccToIndex cc = some i →
        sourceListener "switch" GetControlChange ccToIndex sourceOut targetOuts m msg
          = (m.Switch i,
             ⟨sourceOut, Outgoing.sysex (m.Switch i).ToColorChangeSysEx⟩
               :: targetOuts.map (fun p => ⟨p, Outgoing.original msg⟩)) ∧
        (m.Switch i).Elements.length = m.Elements.length ∧
        ∀ (j : Nat) (e : PadState), m.Elements[j]? = some e →
          (m.Switch i).Elements[j]? =
            some (if (j : Int) = i then { e with On := !e.On } else e)) ∧
    (∀ (ch cc value : Nat), GetControlChange msg = some (ch, cc, value) →
        value = 0 ∨ ccToIndex cc = none →
        sourceListener "switch" GetControlChange ccToIndex sourceOut targetOuts m msg
          = (m, targetOuts.map (fun p => ⟨p, Outgoing.original msg⟩))) ∧
    (∀ (ch : Nat) (c1 c2 : RGB), GetControlChange msg = some (ch, 10, 127) →
        ccToIndex 10 = some 0 →
        sourceListener "switch" GetControlChange ccToIndex sourceOut targetOuts
            ⟨[⟨false, ⟨255, 0, 0⟩, false, false⟩, ⟨false, c1, false, false⟩,
              ⟨false, c2, false, false⟩]⟩ msg
          = (⟨[⟨true, ⟨255, 0, 0⟩, false, false⟩, ⟨false, c1, false, false⟩,
               ⟨false, c2, false, false⟩]⟩,
             ⟨sourceOut, Outgoing.sysex
                [0x47, 0x7F, 0x4C, 0x06, 0x00, 0x30, 0x0F, 0x0F, 0x00, 0x00, 0x00, 0x00,
                 0, 0, 0, 0, 0, 0, 0, 0, 0, 0, 0, 0]⟩
               :: targetOuts.map (fun p => ⟨p, Outgoing.original msg⟩))) := by
  refine ⟨?_, ?_, ?_⟩
  · intro ch cc value i hmsg hvalue hcc
    refine ⟨?_, ?_, fun j e hj => Switch_get? m i j e hj⟩
    · simp [sourceListener, hmsg, hcc, hvalue]
    · unfold PadsStateArray.Switch
      split <;> simp [length_updateElement]
  · intro ch cc value hmsg hor
    rcases hor with hzero | hnone
    · cases hcc : ccToIndex cc <;> simp [sourceListener, hmsg, hcc, hzero]
    · simp [sourceListener, hmsg, hnone]
  · intro ch c1 c2 hmsg hcc
    simp [sourceListener, hmsg, hcc, PadsStateArray.Switch, PadsStateArray.isValidPosition,
      updateElement, PadsStateArray.ToColorChangeSysEx, sysexStep, RGB.ToAkaiBytes,
      OneByteToTwoMidiBytes]
    decide

theorem sourceListener_switch_mode_witness :
    sourceListener "switch" (fun msg : Nat × Nat × Nat => some msg)
        (ccToStateArrayIndex threePadsConfig) lpd8Out [⟨"Synth 2", 2⟩, ⟨"DAW 3", 3⟩]
        ⟨[⟨false, ⟨255, 0, 0⟩, false, false⟩, ⟨false, ⟨0, 255, 0⟩, false, false⟩,
          ⟨false, ⟨0, 0, 255⟩, false, false⟩]⟩ (0, 10, 127)
      = (⟨[⟨true, ⟨255, 0, 0⟩, false, false⟩, ⟨false, ⟨0, 255, 0⟩, false, false⟩,
           ⟨false, ⟨0, 0, 255⟩, false, false⟩]⟩,
         ⟨lpd8Out, Outgoing.sysex
            [0x47, 0x7F, 0x4C, 0x06, 0x00, 0x30, 0x0F, 0x0F, 0x00, 0x00, 0x00, 0x00,
             0, 0, 0, 0, 0, 0, 0, 0, 0, 0, 0, 0]⟩
           :: [⟨"Synth 2", 2⟩, ⟨"DAW 3", 3⟩].map
                (fun p => ⟨p, Outgoing.original (0, 10, 127)⟩)) :=
  (sourceListener_switch_mode (fun msg : Nat × Nat × Nat => some msg)
      (ccToStateArrayIndex threePadsConfig) lpd8Out [⟨"Synth 2", 2⟩, ⟨"DAW 3", 3⟩]
      ⟨[]⟩ (0, 10, 127)).2.2 0 ⟨0, 255, 0⟩ ⟨0, 0, 255⟩ rfl (by decide)

theorem ToColorChangeSysEx_layout_witness :
    ((PadsStateArray.mk [⟨false, ⟨255, 0, 0⟩, false, false⟩,
          ⟨false, ⟨18, 52, 86⟩, true, false⟩]).ToColorChangeSysEx.drop (6 + 6 * 1)).take 6
      = specBlock ⟨false, ⟨18, 52, 86⟩, true, false⟩ ∧
    PadsStateArray.ToColorChangeSysEx
        ⟨updateElement (fun p => { p with Reverse := !p.Reverse })
          (PadsStateArray.mk [⟨false, ⟨255, 0, 0⟩, false, false⟩,
            ⟨false, ⟨18, 52, 86⟩, true, false⟩]).Elements 1⟩
      = (PadsStateArray.mk [⟨false, ⟨255, 0, 0⟩, false, false⟩,
            ⟨false, ⟨18, 52, 86⟩, true, false⟩]).ToColorChangeSysEx.take (6 + 6 * 1)
        ++ (if specLit ⟨false, ⟨18, 52, 86⟩, true, false⟩ then [0, 0, 0, 0, 0, 0]
            else specColourBlock ⟨false, ⟨18, 52, 86⟩, true, false⟩)
        ++ (PadsStateArray.mk [⟨false, ⟨255, 0, 0⟩, false, false⟩,
            ⟨false, ⟨18, 52, 86⟩, true, false⟩]).ToColorChangeSysEx.drop (6 + 6 * 1 + 6) :=
  (ToColorChangeSysEx_layout (PadsStateArray.mk [⟨false, ⟨255, 0, 0⟩, false, false⟩,
      ⟨false, ⟨18, 52, 86⟩, true, false⟩])).2.2 1 ⟨false, ⟨18, 52, 86⟩, true, false⟩ rfl

end LPD8
